import Mathlib

/-!
Verification of the playout (jitter) buffer engine of the repository,
embedded from src/driver/tasks/udp_rx/playout_buffer.rs.

Machine integers are modelled as Nat with explicit reductions modulo
2^16 (RTP sequence numbers, u16) and 2^32 (RTP timestamps, u32);
signed reinterpretation (the "as i16" / "as i32" casts in the source)
is made explicit by toSigned16 / toSigned32.
-/

/-- Samples per mono frame (the crate constant MONO_FRAME_SIZE).
Modelled from the spec: the frame-size constant lives in the crate's
constants module, which is not among the provided sources; the spec
describes it as the sample count per output frame (48 kHz, 20 ms). -/
def MONO_FRAME_SIZE : Nat := 960

/-- Nominal frames per second (the crate constant AUDIO_FRAME_RATE).
Modelled from the spec: the frame-rate constant lives in the crate's
constants module, which is not among the provided sources. -/
def AUDIO_FRAME_RATE : Nat := 50

/-- The configuration consumed by the buffer.  In the crate,
Config::playout_buffer_length is a NonZeroUsize; positivity is carried
as a hypothesis where a claim needs it. -/
structure Config where
  playout_buffer_length : Nat
deriving DecidableEq

/-- One received frame.  In the source a StoredPacket holds the raw
bytes plus the decrypted flag; the RTP header fields (u16 sequence,
u32 timestamp) are re-parsed from those bytes on demand, and the rest
of the payload is opaque.  Here the two header fields are explicit and
`payload` stands for the remaining opaque bytes. -/
structure StoredPacket where
  seq : Nat
  ts : Nat
  payload : Nat
  decrypted : Bool
deriving DecidableEq

/-- The u16 sequence number parsed from the packet (rtp.get_sequence().0). -/
def pktSeq (p : StoredPacket) : Nat := p.seq % 65536

/-- The u32 timestamp parsed from the packet (rtp.get_timestamp().0). -/
def pktTs (p : StoredPacket) : Nat := p.ts % 4294967296

inductive PlayoutMode where
  | Fill
  | Drain
deriving DecidableEq

inductive PacketLookup where
  | Packet (p : StoredPacket)
  | MissedPacket
  | Filling
deriving DecidableEq

/-- Reinterpret a u16 bit pattern as an i16 (the `as i16` cast). -/
def toSigned16 (n : Nat) : Int :=
  if n % 65536 < 32768 then (n % 65536 : Int) else (n % 65536 : Int) - 65536

/-- Reinterpret a u32 bit pattern as an i32 (the `as i32` cast). -/
def toSigned32 (n : Nat) : Int :=
  if n % 4294967296 < 2147483648 then (n % 4294967296 : Int)
  else (n % 4294967296 : Int) - 4294967296

/-- Wrapping u16 subtraction a - b. -/
def wsub16 (a b : Nat) : Nat := (a + (65536 - b % 65536)) % 65536

/-- Wrapping u32 subtraction a - b. -/
def wsub32 (a b : Nat) : Nat := (a + (4294967296 - b % 4294967296)) % 4294967296

/-- The wrap-safe signed difference on 16-bit counters:
`(a - b).0 as i16` in the source (desired_index computation). -/
def diff16 (a b : Nat) : Int := toSigned16 (wsub16 a b)

/-- The wrap-safe signed difference on 32-bit counters:
`(a - b).0 as i32` in the source (ts_diff computation). -/
def diff32 (a b : Nat) : Int := toSigned32 (wsub32 a b)

/-- The playout buffer state.  The VecDeque of Option slots is a List;
`next_seq` is a u16 value, `current_timestamp` an optional u32 value. -/
structure PlayoutBuffer where
  buffer : List (Option StoredPacket)
  playout_mode : PlayoutMode
  next_seq : Nat
  current_timestamp : Option Nat
  consecutive_store_fails : Nat
deriving DecidableEq

/-- PlayoutBuffer::new (the capacity argument only pre-allocates the
VecDeque and has no observable effect, so it is dropped). -/
def PlayoutBuffer.new (next_seq : Nat) : PlayoutBuffer :=
  { buffer := []
    playout_mode := PlayoutMode.Fill
    next_seq := next_seq % 65536
    current_timestamp := none
    consecutive_store_fails := 0 }

/-- reset_timeout: the packet timestamp advanced by
MONO_FRAME_SIZE * playout_buffer_length, as u32 (the `as u32` cast on
t_shift truncates before the wrapping add). -/
def reset_timeout (p : StoredPacket) (cfg : Config) : Nat :=
  (pktTs p + (MONO_FRAME_SIZE * cfg.playout_buffer_length) % 4294967296) % 4294967296

/-- err_threshold = i16::try_from(playout_buffer_length * 5).unwrap_or(32). -/
def err_threshold (cfg : Config) : Int :=
  if cfg.playout_buffer_length * 5 ≤ 32767 then (cfg.playout_buffer_length * 5 : Int)
  else 32

/-- skip_after = i32::try_from(playout_buffer_length * 5 * MONO_FRAME_SIZE)
      .unwrap_or((AUDIO_FRAME_RATE * 2 * MONO_FRAME_SIZE) as i32). -/
def skip_after (cfg : Config) : Int :=
  if cfg.playout_buffer_length * 5 * MONO_FRAME_SIZE ≤ 2147483647
  then (cfg.playout_buffer_length * 5 * MONO_FRAME_SIZE : Int)
  else (AUDIO_FRAME_RATE * 2 * MONO_FRAME_SIZE : Int)

/-- The desync condition of store_packet (lines 84-86):
(buffer.is_empty() || consecutive_store_fails >= err_threshold as usize)
 && desired_index >= err_threshold.
It does not read current_timestamp, so it is evaluated on the incoming
state directly. -/
def desyncCond (s : PlayoutBuffer) (pkt : StoredPacket) (cfg : Config) : Bool :=
  (s.buffer.isEmpty || decide ((err_threshold cfg).toNat ≤ s.consecutive_store_fails))
    && decide (err_threshold cfg ≤ diff16 (pktSeq pkt) s.next_seq)

/-- The while-loop `while buffer.len() <= index { buffer.push_back(None) }`:
grow the slot list with gap markers until it has a slot at `index`. -/
def growTo (buf : List (Option StoredPacket)) (index : Nat) :
    List (Option StoredPacket) :=
  buf ++ List.replicate (index + 1 - buf.length) none

/-- Lines 70-72 of store_packet: establish the playout horizon on the
first stored packet. -/
def store_init_ts (s : PlayoutBuffer) (packet : StoredPacket) (cfg : Config) :
    PlayoutBuffer :=
  if s.current_timestamp.isNone
  then { s with current_timestamp := some (reset_timeout packet cfg) }
  else s

/-- Lines 88-114 of store_packet: the dispatch on desired_index and the
desync condition (discard late, reject far-ahead, otherwise clear-and-reset
on desync and slot the packet in). -/
def store_dispatch (s0 : PlayoutBuffer) (packet : StoredPacket) (cfg : Config) :
    PlayoutBuffer :=
  let desired_index := diff16 (pktSeq packet) s0.next_seq
  let handling_desync := desyncCond s0 packet cfg
  if desired_index < 0 then
    s0
  else if handling_desync = false ∧ 64 ≤ desired_index then
    { s0 with consecutive_store_fails := s0.consecutive_store_fails + 1 }
  else
    let s2 := if handling_desync
      then { s0 with buffer := [], next_seq := pktSeq packet }
      else s0
    let index := if handling_desync then 0 else desired_index.toNat
    { s2 with
      buffer := (growTo s2.buffer index).set index (some packet)
      consecutive_store_fails := 0 }

/-- Lines 116-118 of store_packet: switch to Drain once the slot list is
at least the configured length (note: the total length, gap markers
included). -/
def store_check_drain (cfg : Config) (s1 : PlayoutBuffer) : PlayoutBuffer :=
  if cfg.playout_buffer_length ≤ s1.buffer.length
  then { s1 with playout_mode := PlayoutMode.Drain }
  else s1

/-- PlayoutBuffer::store_packet. -/
def store_packet (s : PlayoutBuffer) (packet : StoredPacket) (cfg : Config) :
    PlayoutBuffer :=
  store_check_drain cfg (store_dispatch (store_init_ts s packet cfg) packet cfg)

/-- The body of fetch_packet from the pop_front match up to (but not
including) the end-of-call emptiness reset and cursor advance
(lines 126-180 of the source).  The source unwraps current_timestamp
in the stored-packet branch; that unwrap is modelled by getD 0, and
the Drain-implies-cursor-present invariant shows the default is never
taken on reachable states. -/
def fetch_inner (s : PlayoutBuffer) (cfg : Config) :
    PacketLookup × PlayoutBuffer :=
  match s.buffer with
  | some pkt :: rest =>
      let curr_ts := s.current_timestamp.getD 0
      let pkt_ts := pktTs pkt
      let ts_diff := diff32 curr_ts pkt_ts
      if 0 ≤ ts_diff then
        (PacketLookup.Packet pkt,
          { s with buffer := rest, next_seq := (pktSeq pkt + 1) % 65536 })
      else if ts_diff ≤ -(skip_after cfg) then
        (PacketLookup.Packet pkt,
          { s with buffer := rest, next_seq := (pktSeq pkt + 1) % 65536,
                   current_timestamp := some pkt_ts })
      else
        (PacketLookup.Filling,
          { s with buffer := some pkt :: rest, playout_mode := PlayoutMode.Fill })
  | none :: rest =>
      (PacketLookup.MissedPacket,
        { s with buffer := rest, next_seq := (s.next_seq + 1) % 65536 })
  | [] => (PacketLookup.Filling, s)

/-- The end of fetch_packet (lines 182-189): reset to Fill and drop the
cursor if the buffer is now empty, then advance the cursor by one frame
if it still exists. -/
def fetch_finalize (s : PlayoutBuffer) : PlayoutBuffer :=
  let s1 := if s.buffer.isEmpty
    then { s with playout_mode := PlayoutMode.Fill, current_timestamp := none }
    else s
  { s1 with current_timestamp :=
      s1.current_timestamp.map (fun t => (t + MONO_FRAME_SIZE) % 4294967296) }

/-- PlayoutBuffer::fetch_packet. -/
def fetch_packet (s : PlayoutBuffer) (cfg : Config) :
    PacketLookup × PlayoutBuffer :=
  if s.playout_mode = PlayoutMode.Fill then (PacketLookup.Filling, s)
  else
    let r := fetch_inner s cfg
    (r.1, fetch_finalize r.2)

/-- Number of slots actually holding a stored packet (gap markers excluded). -/
def occupiedLen (buf : List (Option StoredPacket)) : Nat :=
  (buf.filter Option.isSome).length

/-! ### Wrap-safe arithmetic: characterization lemmas -/

lemma diff16_range (a b : Nat) : -32768 ≤ diff16 a b ∧ diff16 a b < 32768 := by
  unfold diff16 toSigned16 wsub16
  split <;> omega

lemma diff16_congr (a b : Nat) (ha : a < 65536) (hb : b < 65536) :
    ((b : Int) + diff16 a b) % 65536 = a := by
  unfold diff16 toSigned16 wsub16
  split <;> omega

lemma diff16_unique (a b : Nat) (ha : a < 65536) (hb : b < 65536) (d : Int)
    (h1 : -32768 ≤ d) (h2 : d < 32768) (h3 : ((b : Int) + d) % 65536 = a) :
    d = diff16 a b := by
  unfold diff16 toSigned16 wsub16
  split <;> omega

lemma diff32_range (a b : Nat) :
    -2147483648 ≤ diff32 a b ∧ diff32 a b < 2147483648 := by
  unfold diff32 toSigned32 wsub32
  split <;> omega

lemma diff32_congr (a b : Nat) (ha : a < 4294967296) (hb : b < 4294967296) :
    ((b : Int) + diff32 a b) % 4294967296 = a := by
  unfold diff32 toSigned32 wsub32
  split <;> omega

lemma diff32_unique (a b : Nat) (ha : a < 4294967296) (hb : b < 4294967296)
    (d : Int) (h1 : -2147483648 ≤ d) (h2 : d < 2147483648)
    (h3 : ((b : Int) + d) % 4294967296 = a) : d = diff32 a b := by
  unfold diff32 toSigned32 wsub32
  split <;> omega

lemma diff16_self (a : Nat) : diff16 a a = 0 := by
  unfold diff16 toSigned16 wsub16
  split <;> omega

lemma diff16_add_small (b c : Nat) (h1 : 1 ≤ c) (h2 : c < 32768) :
    diff16 ((b + c) % 65536) (b % 65536) = c := by
  unfold diff16 toSigned16 wsub16
  split <;> omega

lemma diff16_toNat_eq (a b : Nat) (ha : a < 65536) (hb : b < 65536)
    (h : 0 ≤ diff16 a b) : (b + (diff16 a b).toNat) % 65536 = a := by
  unfold diff16 toSigned16 wsub16 at h ⊢
  split at h <;> split <;> omega

lemma pktSeq_lt (p : StoredPacket) : pktSeq p < 65536 :=
  Nat.mod_lt _ (by omega)

lemma pktTs_lt (p : StoredPacket) : pktTs p < 4294967296 :=
  Nat.mod_lt _ (by omega)

lemma err_threshold_nonneg (cfg : Config) : 0 ≤ err_threshold cfg := by
  unfold err_threshold
  split <;> omega

lemma skip_after_nonneg (cfg : Config) : 0 ≤ skip_after cfg := by
  unfold skip_after
  split <;> positivity

/-- Claim C3: for all 16-bit values a and b, diff16 a b — the wrapping
subtraction reinterpreted as signed 16-bit, as used for desired_index —
is the unique signed value d with -2^15 ≤ d < 2^15 and b + d ≡ a
(mod 2^16): the shortest directed distance from b to a on the 2^16
cyclic number line, with exactly half the ring ahead and half behind
and the antipodal tie (distance 2^15) resolved toward behind (the
range admits -2^15 but excludes +2^15).  The analogous property holds
for the 32-bit timestamp difference diff32 used for ts_diff. -/
theorem wrap_safe_diff_shortest_distance (a b x y : Nat)
    (ha : a < 65536) (hb : b < 65536)
    (hx : x < 4294967296) (hy : y < 4294967296) :
    (-32768 ≤ diff16 a b ∧ diff16 a b < 32768 ∧
      ((b : Int) + diff16 a b) % 65536 = a ∧
      ∀ d : Int, -32768 ≤ d → d < 32768 →
        ((b : Int) + d) % 65536 = a → d = diff16 a b) ∧
    (-2147483648 ≤ diff32 x y ∧ diff32 x y < 2147483648 ∧
      ((y : Int) + diff32 x y) % 4294967296 = x ∧
      ∀ d : Int, -2147483648 ≤ d → d < 2147483648 →
        ((y : Int) + d) % 4294967296 = x → d = diff32 x y) :=
  ⟨⟨(diff16_range a b).1, (diff16_range a b).2, diff16_congr a b ha hb,
    fun d h1 h2 h3 => diff16_unique a b ha hb d h1 h2 h3⟩,
   ⟨(diff32_range x y).1, (diff32_range x y).2, diff32_congr x y hx hy,
    fun d h1 h2 h3 => diff32_unique x y hx hy d h1 h2 h3⟩⟩

/-- Witness for C3 at the antipodal tie (a = 2^15, b = 0: distance
exactly 2^15, resolved to -2^15) and at a small wrapped 32-bit pair. -/
theorem wrap_safe_diff_shortest_distance_witness :
    (32768 : Nat) < 65536 ∧ (0 : Nat) < 65536 ∧
    (5 : Nat) < 4294967296 ∧ (4294967290 : Nat) < 4294967296 ∧
    ((-32768 ≤ diff16 32768 0 ∧ diff16 32768 0 < 32768 ∧
      ((0 : Int) + diff16 32768 0) % 65536 = 32768 ∧
      ∀ d : Int, -32768 ≤ d → d < 32768 →
        ((0 : Int) + d) % 65536 = 32768 → d = diff16 32768 0) ∧
     (-2147483648 ≤ diff32 5 4294967290 ∧ diff32 5 4294967290 < 2147483648 ∧
      ((4294967290 : Int) + diff32 5 4294967290) % 4294967296 = 5 ∧
      ∀ d : Int, -2147483648 ≤ d → d < 2147483648 →
        ((4294967290 : Int) + d) % 4294967296 = 5 → d = diff32 5 4294967290)) :=
  ⟨by decide, by decide, by decide, by decide,
   wrap_safe_diff_shortest_distance 32768 0 5 4294967290
     (by decide) (by decide) (by decide) (by decide)⟩

/-! ### Phase lemmas for store_packet -/

lemma store_init_ts_fields (s : PlayoutBuffer) (pkt : StoredPacket) (cfg : Config) :
    (store_init_ts s pkt cfg).buffer = s.buffer ∧
    (store_init_ts s pkt cfg).next_seq = s.next_seq ∧
    (store_init_ts s pkt cfg).playout_mode = s.playout_mode ∧
    (store_init_ts s pkt cfg).consecutive_store_fails = s.consecutive_store_fails ∧
    (store_init_ts s pkt cfg).current_timestamp.isSome = true := by
  unfold store_init_ts
  rcases h : s.current_timestamp with _ | t <;> simp [h]

lemma store_dispatch_mode (s0 : PlayoutBuffer) (pkt : StoredPacket) (cfg : Config) :
    (store_dispatch s0 pkt cfg).playout_mode = s0.playout_mode := by
  simp only [store_dispatch]
  split_ifs <;> rfl

lemma store_dispatch_ts (s0 : PlayoutBuffer) (pkt : StoredPacket) (cfg : Config) :
    (store_dispatch s0 pkt cfg).current_timestamp = s0.current_timestamp := by
  simp only [store_dispatch]
  split_ifs <;> rfl

lemma store_check_drain_fields (cfg : Config) (s1 : PlayoutBuffer) :
    (store_check_drain cfg s1).buffer = s1.buffer ∧
    (store_check_drain cfg s1).next_seq = s1.next_seq ∧
    (store_check_drain cfg s1).current_timestamp = s1.current_timestamp ∧
    (store_check_drain cfg s1).consecutive_store_fails = s1.consecutive_store_fails := by
  unfold store_check_drain
  split_ifs <;> simp

lemma store_check_drain_mode (cfg : Config) (s1 : PlayoutBuffer) :
    (store_check_drain cfg s1).playout_mode =
      if cfg.playout_buffer_length ≤ s1.buffer.length then PlayoutMode.Drain
      else s1.playout_mode := by
  unfold store_check_drain
  split_ifs <;> rfl

lemma store_dispatch_late (s0 : PlayoutBuffer) (pkt : StoredPacket) (cfg : Config)
    (h : diff16 (pktSeq pkt) s0.next_seq < 0) :
    store_dispatch s0 pkt cfg = s0 := by
  simp only [store_dispatch]
  rw [if_pos h]

lemma store_dispatch_ceiling (s0 : PlayoutBuffer) (pkt : StoredPacket) (cfg : Config)
    (h1 : desyncCond s0 pkt cfg = false) (h2 : 64 ≤ diff16 (pktSeq pkt) s0.next_seq) :
    store_dispatch s0 pkt cfg =
      { s0 with consecutive_store_fails := s0.consecutive_store_fails + 1 } := by
  simp only [store_dispatch]
  rw [if_neg (by omega), if_pos ⟨h1, h2⟩]

lemma store_dispatch_desync (s0 : PlayoutBuffer) (pkt : StoredPacket) (cfg : Config)
    (h : desyncCond s0 pkt cfg = true) :
    store_dispatch s0 pkt cfg =
      { s0 with buffer := [some pkt], next_seq := pktSeq pkt,
                consecutive_store_fails := 0 } := by
  have hd : 0 ≤ diff16 (pktSeq pkt) s0.next_seq := by
    have := err_threshold_nonneg cfg
    simp only [desyncCond, Bool.and_eq_true, decide_eq_true_eq] at h
    omega
  simp only [store_dispatch]
  rw [if_neg (by omega), if_neg (by simp [h]), if_pos h, if_pos h]
  rfl

lemma store_dispatch_insert (s0 : PlayoutBuffer) (pkt : StoredPacket) (cfg : Config)
    (h1 : desyncCond s0 pkt cfg = false) (h2 : 0 ≤ diff16 (pktSeq pkt) s0.next_seq)
    (h3 : diff16 (pktSeq pkt) s0.next_seq < 64) :
    store_dispatch s0 pkt cfg =
      { s0 with
        buffer := (growTo s0.buffer (diff16 (pktSeq pkt) s0.next_seq).toNat).set
          (diff16 (pktSeq pkt) s0.next_seq).toNat (some pkt)
        consecutive_store_fails := 0 } := by
  simp only [store_dispatch]
  rw [if_neg (by omega), if_neg (by intro hc; omega), if_neg (by simp [h1]),
    if_neg (by simp [h1])]

/-! ### Phase lemmas for fetch_packet -/

lemma desyncCond_init_ts (s : PlayoutBuffer) (pkt q : StoredPacket) (cfg : Config) :
    desyncCond (store_init_ts s pkt cfg) q cfg = desyncCond s q cfg := by
  unfold store_init_ts desyncCond
  split <;> rfl

lemma occupiedLen_le (buf : List (Option StoredPacket)) :
    occupiedLen buf ≤ buf.length :=
  List.length_filter_le _ _

lemma store_mode_iff (s : PlayoutBuffer) (pkt : StoredPacket) (cfg : Config) :
    ((store_packet s pkt cfg).playout_mode = PlayoutMode.Drain ↔
      cfg.playout_buffer_length ≤ (store_packet s pkt cfg).buffer.length ∨
        s.playout_mode = PlayoutMode.Drain) := by
  unfold store_packet
  rw [store_check_drain_mode, (store_check_drain_fields cfg _).1]
  have hm : (store_dispatch (store_init_ts s pkt cfg) pkt cfg).playout_mode
      = s.playout_mode := by
    rw [store_dispatch_mode]
    exact (store_init_ts_fields s pkt cfg).2.2.1
  split_ifs with h <;> simp [h, hm]

lemma fetch_fill (s : PlayoutBuffer) (cfg : Config)
    (h : s.playout_mode = PlayoutMode.Fill) :
    fetch_packet s cfg = (PacketLookup.Filling, s) := by
  unfold fetch_packet
  rw [if_pos h]

lemma fetch_drain (s : PlayoutBuffer) (cfg : Config)
    (h : s.playout_mode = PlayoutMode.Drain) :
    fetch_packet s cfg =
      ((fetch_inner s cfg).1, fetch_finalize (fetch_inner s cfg).2) := by
  unfold fetch_packet
  rw [if_neg (by rw [h]; exact fun hc => PlayoutMode.noConfusion hc)]

lemma fetch_finalize_buffer (s : PlayoutBuffer) :
    (fetch_finalize s).buffer = s.buffer := by
  unfold fetch_finalize
  split <;> rfl

lemma fetch_finalize_next_seq (s : PlayoutBuffer) :
    (fetch_finalize s).next_seq = s.next_seq := by
  unfold fetch_finalize
  split <;> rfl

lemma fetch_finalize_mode (s : PlayoutBuffer) :
    (fetch_finalize s).playout_mode =
      if s.buffer.isEmpty then PlayoutMode.Fill else s.playout_mode := by
  unfold fetch_finalize
  split <;> rfl

lemma fetch_finalize_ts (s : PlayoutBuffer) :
    (fetch_finalize s).current_timestamp =
      if s.buffer.isEmpty then none
      else s.current_timestamp.map (fun t => (t + MONO_FRAME_SIZE) % 4294967296) := by
  unfold fetch_finalize
  split <;> rfl

lemma fetch_inner_nil (s : PlayoutBuffer) (cfg : Config) (h : s.buffer = []) :
    fetch_inner s cfg = (PacketLookup.Filling, s) := by
  unfold fetch_inner
  rw [h]

lemma fetch_inner_gap (s : PlayoutBuffer) (cfg : Config)
    (rest : List (Option StoredPacket)) (h : s.buffer = none :: rest) :
    fetch_inner s cfg =
      (PacketLookup.MissedPacket,
        { s with buffer := rest, next_seq := (s.next_seq + 1) % 65536 }) := by
  unfold fetch_inner
  rw [h]

lemma fetch_inner_emit_now (s : PlayoutBuffer) (cfg : Config) (p : StoredPacket)
    (rest : List (Option StoredPacket)) (t : Nat)
    (h : s.buffer = some p :: rest) (ht : s.current_timestamp = some t)
    (hd : 0 ≤ diff32 t (pktTs p)) :
    fetch_inner s cfg =
      (PacketLookup.Packet p,
        { s with buffer := rest, next_seq := (pktSeq p + 1) % 65536 }) := by
  unfold fetch_inner
  rw [h, ht]
  simp only [Option.getD_some]
  rw [if_pos hd]

lemma fetch_inner_far (s : PlayoutBuffer) (cfg : Config) (p : StoredPacket)
    (rest : List (Option StoredPacket)) (t : Nat)
    (h : s.buffer = some p :: rest) (ht : s.current_timestamp = some t)
    (hd1 : diff32 t (pktTs p) < 0) (hd2 : diff32 t (pktTs p) ≤ -(skip_after cfg)) :
    fetch_inner s cfg =
      (PacketLookup.Packet p,
        { s with buffer := rest, next_seq := (pktSeq p + 1) % 65536,
                 current_timestamp := some (pktTs p) }) := by
  unfold fetch_inner
  rw [h, ht]
  simp only [Option.getD_some]
  rw [if_neg (by omega), if_pos hd2]

lemma fetch_inner_withhold (s : PlayoutBuffer) (cfg : Config) (p : StoredPacket)
    (rest : List (Option StoredPacket)) (t : Nat)
    (h : s.buffer = some p :: rest) (ht : s.current_timestamp = some t)
    (hd1 : diff32 t (pktTs p) < 0) (hd2 : -(skip_after cfg) < diff32 t (pktTs p)) :
    fetch_inner s cfg =
      (PacketLookup.Filling,
        { s with buffer := some p :: rest,
                 playout_mode := PlayoutMode.Fill }) := by
  unfold fetch_inner
  rw [h, ht]
  simp only [Option.getD_some]
  rw [if_neg (by omega), if_neg (by omega)]

/-! ### Claims C1, C2, C4, C5, C7 -/

/-- Claim C1 counterexample: with target depth 2, storing a single packet
one slot ahead of next_seq into a fresh buffer yields the slot list
[gap, packet] of total length 2, so the transition check fires and the
mode becomes Drain although only one slot actually holds a packet —
refuting "mode is Drain only while the occupied length was at least the
target depth at the time of the last transition check". -/
theorem c1_counterexample :
    (store_packet (PlayoutBuffer.new 0) ⟨1, 0, 0, false⟩ ⟨2⟩).playout_mode
        = PlayoutMode.Drain ∧
    occupiedLen (store_packet (PlayoutBuffer.new 0) ⟨1, 0, 0, false⟩ ⟨2⟩).buffer
        = 1 ∧ (1 : Nat) < 2 := by
  decide

/-- Claim C1, amended: replace occupied length by total slot-list length
(gap markers included).  After any store, the mode is Drain exactly when
the resulting slot-list length reaches the target depth or the mode was
already Drain (so a transition to Drain happens only when the total
length is at least the target depth); fetch never switches to Drain;
the mode reverts to Fill whenever the buffer empties, and on a
withheld-timestamp re-prime. -/
theorem c1_amended (s : PlayoutBuffer) (pkt : StoredPacket) (cfg : Config) :
    ((store_packet s pkt cfg).playout_mode = PlayoutMode.Drain ↔
      cfg.playout_buffer_length ≤ (store_packet s pkt cfg).buffer.length ∨
        s.playout_mode = PlayoutMode.Drain) ∧
    ((fetch_packet s cfg).2.playout_mode = PlayoutMode.Drain →
      s.playout_mode = PlayoutMode.Drain) ∧
    ((fetch_packet s cfg).2.buffer = [] →
      (fetch_packet s cfg).2.playout_mode = PlayoutMode.Fill) ∧
    (∀ p rest t, s.playout_mode = PlayoutMode.Drain →
      s.buffer = some p :: rest → s.current_timestamp = some t →
      -(skip_after cfg) < diff32 t (pktTs p) → diff32 t (pktTs p) < 0 →
      (fetch_packet s cfg).2.playout_mode = PlayoutMode.Fill) := by
  refine ⟨store_mode_iff s pkt cfg, ?_, ?_, ?_⟩
  · intro h
    cases hm : s.playout_mode with
    | Drain => rfl
    | Fill =>
        rw [fetch_fill s cfg hm] at h
        exact absurd h (by rw [hm]; exact fun hc => PlayoutMode.noConfusion hc)
  · intro h
    cases hm : s.playout_mode with
    | Fill => rw [fetch_fill s cfg hm]; exact hm
    | Drain =>
        rw [fetch_drain s cfg hm] at h ⊢
        rw [fetch_finalize_buffer] at h
        rw [fetch_finalize_mode, h]
        rfl
  · intro p rest t hm hb ht h1 h2
    rw [fetch_drain s cfg hm, fetch_inner_withhold s cfg p rest t hb ht h2 h1,
      fetch_finalize_mode]
    rfl

/-- Witness for the amended C1: a concrete Drain-mode state whose front
packet is slightly ahead of the cursor reverts to Fill on fetch. -/
theorem c1_amended_witness :
    (fetch_packet
        ⟨[some ⟨1, 3000, 0, false⟩], PlayoutMode.Drain, 1, some 1920, 0⟩
        ⟨1⟩).2.playout_mode = PlayoutMode.Fill :=
  (c1_amended ⟨[some ⟨1, 3000, 0, false⟩], PlayoutMode.Drain, 1, some 1920, 0⟩
      ⟨0, 0, 0, false⟩ ⟨1⟩).2.2.2 ⟨1, 3000, 0, false⟩ [] 1920
    rfl rfl rfl (by decide) (by decide)

/-- Claim C4 counterexample: a reachable Drain state (depth 1) whose
front packet sits exactly at ts_diff = -skip_after.  The claim's closed
interval assigns this boundary to the withhold branch (return Filling),
but the code's far-future branch (ts_diff <= -skip_after) emits it. -/
theorem c4_boundary_counterexample :
    (fetch_packet
        (fetch_packet
          (store_packet
            (store_packet (PlayoutBuffer.new 0) ⟨0, 0, 10, false⟩ ⟨1⟩)
            ⟨1, 6720, 11, false⟩ ⟨1⟩) ⟨1⟩).2 ⟨1⟩).1
      = PacketLookup.Packet ⟨1, 6720, 11, false⟩ ∧
    (fetch_packet
        (fetch_packet
          (store_packet
            (store_packet (PlayoutBuffer.new 0) ⟨0, 0, 10, false⟩ ⟨1⟩)
            ⟨1, 6720, 11, false⟩ ⟨1⟩) ⟨1⟩).2 ⟨1⟩).1
      ≠ PacketLookup.Filling ∧
    (fetch_packet
        (store_packet
          (store_packet (PlayoutBuffer.new 0) ⟨0, 0, 10, false⟩ ⟨1⟩)
          ⟨1, 6720, 11, false⟩ ⟨1⟩) ⟨1⟩).2.playout_mode = PlayoutMode.Drain ∧
    (fetch_packet
        (store_packet
          (store_packet (PlayoutBuffer.new 0) ⟨0, 0, 10, false⟩ ⟨1⟩)
          ⟨1, 6720, 11, false⟩ ⟨1⟩) ⟨1⟩).2.buffer
      = [some ⟨1, 6720, 11, false⟩] ∧
    (fetch_packet
        (store_packet
          (store_packet (PlayoutBuffer.new 0) ⟨0, 0, 10, false⟩ ⟨1⟩)
          ⟨1, 6720, 11, false⟩ ⟨1⟩) ⟨1⟩).2.current_timestamp = some 1920 ∧
    diff32 1920 (pktTs ⟨1, 6720, 11, false⟩) = -(skip_after ⟨1⟩) := by
  decide

/-- Claim C4, amended: the withhold branch applies on the open interval
-skip_after < ts_diff < 0 (the boundary ts_diff = -skip_after belongs to
the far-future emit branch).  There, the packet is neither emitted nor
discarded: it is pushed back to the front, the mode reverts to Fill, and
the call returns Filling. -/
theorem c4_amended (s : PlayoutBuffer) (cfg : Config) (p : StoredPacket)
    (rest : List (Option StoredPacket)) (t : Nat)
    (hm : s.playout_mode = PlayoutMode.Drain)
    (hb : s.buffer = some p :: rest)
    (ht : s.current_timestamp = some t)
    (h1 : -(skip_after cfg) < diff32 t (pktTs p))
    (h2 : diff32 t (pktTs p) < 0) :
    (fetch_packet s cfg).1 = PacketLookup.Filling ∧
    (fetch_packet s cfg).2.buffer = s.buffer ∧
    (fetch_packet s cfg).2.playout_mode = PlayoutMode.Fill ∧
    (fetch_packet s cfg).2.next_seq = s.next_seq := by
  rw [fetch_drain s cfg hm, fetch_inner_withhold s cfg p rest t hb ht h2 h1]
  refine ⟨rfl, ?_, ?_, ?_⟩
  · rw [fetch_finalize_buffer, hb]
  · rw [fetch_finalize_mode]; rfl
  · rw [fetch_finalize_next_seq]

/-- Witness for the amended C4 just inside the boundary
(ts_diff = -skip_after + 1). -/
theorem c4_amended_witness :
    (fetch_packet
        ⟨[some ⟨1, 6719, 11, false⟩], PlayoutMode.Drain, 1, some 1920, 0⟩
        ⟨1⟩).1 = PacketLookup.Filling ∧
    (fetch_packet
        ⟨[some ⟨1, 6719, 11, false⟩], PlayoutMode.Drain, 1, some 1920, 0⟩
        ⟨1⟩).2.playout_mode = PlayoutMode.Fill :=
  ⟨(c4_amended ⟨[some ⟨1, 6719, 11, false⟩], PlayoutMode.Drain, 1, some 1920, 0⟩
      ⟨1⟩ ⟨1, 6719, 11, false⟩ [] 1920 rfl rfl rfl (by decide) (by decide)).1,
   (c4_amended ⟨[some ⟨1, 6719, 11, false⟩], PlayoutMode.Drain, 1, some 1920, 0⟩
      ⟨1⟩ ⟨1, 6719, 11, false⟩ [] 1920 rfl rfl rfl (by decide) (by decide)).2.2.1⟩

/-- Claim C5: in Drain mode, a front packet whose timestamp is more than
skip_after ahead of the cursor (ts_diff < -skip_after) is emitted
immediately, next_seq becomes the packet's sequence number plus one, and
the cursor is snapped to the packet's timestamp before the end-of-call
one-frame advance (fetch_inner is the call up to that point). -/
theorem c5_far_future_override (s : PlayoutBuffer) (cfg : Config)
    (p : StoredPacket) (rest : List (Option StoredPacket)) (t : Nat)
    (hm : s.playout_mode = PlayoutMode.Drain)
    (hb : s.buffer = some p :: rest)
    (ht : s.current_timestamp = some t)
    (hd : diff32 t (pktTs p) < -(skip_after cfg)) :
    (fetch_packet s cfg).1 = PacketLookup.Packet p ∧
    (fetch_inner s cfg).2.next_seq = (pktSeq p + 1) % 65536 ∧
    (fetch_inner s cfg).2.current_timestamp = some (pktTs p) ∧
    (fetch_packet s cfg).2.next_seq = (pktSeq p + 1) % 65536 := by
  have hneg : diff32 t (pktTs p) < 0 := by
    have := skip_after_nonneg cfg
    omega
  have hle : diff32 t (pktTs p) ≤ -(skip_after cfg) := le_of_lt hd
  rw [fetch_drain s cfg hm, fetch_inner_far s cfg p rest t hb ht hneg hle]
  exact ⟨rfl, rfl, rfl, by rw [fetch_finalize_next_seq]⟩

/-- Witness for C5: ts_diff = -4801 < -skip_after = -4800 at depth 1. -/
theorem c5_far_future_override_witness :
    (fetch_packet
        ⟨[some ⟨5, 6721, 1, false⟩], PlayoutMode.Drain, 7, some 1920, 0⟩
        ⟨1⟩).1 = PacketLookup.Packet ⟨5, 6721, 1, false⟩ ∧
    (fetch_inner
        ⟨[some ⟨5, 6721, 1, false⟩], PlayoutMode.Drain, 7, some 1920, 0⟩
        ⟨1⟩).2.current_timestamp = some 6721 :=
  ⟨(c5_far_future_override
      ⟨[some ⟨5, 6721, 1, false⟩], PlayoutMode.Drain, 7, some 1920, 0⟩
      ⟨1⟩ ⟨5, 6721, 1, false⟩ [] 1920 rfl rfl rfl (by decide)).1,
   (c5_far_future_override
      ⟨[some ⟨5, 6721, 1, false⟩], PlayoutMode.Drain, 7, some 1920, 0⟩
      ⟨1⟩ ⟨5, 6721, 1, false⟩ [] 1920 rfl rfl rfl (by decide)).2.2.1⟩

/-- Claim C7 counterexample: with target depth 2, store seq 1 first
(slot list [gap, pkt], already Drain), then store seq 0 with a timestamp
1080 samples ahead of the cursor; that second store brings the occupied
length to the target depth 2, yet the immediately following fetch
returns Filling because the front packet's timestamp is withheld. -/
theorem c7_counterexample :
    occupiedLen (store_packet (PlayoutBuffer.new 0) ⟨1, 0, 20, false⟩ ⟨2⟩).buffer
      = 1 ∧
    occupiedLen (store_packet
        (store_packet (PlayoutBuffer.new 0) ⟨1, 0, 20, false⟩ ⟨2⟩)
        ⟨0, 3000, 21, false⟩ ⟨2⟩).buffer = 2 ∧
    (fetch_packet
        (store_packet
          (store_packet (PlayoutBuffer.new 0) ⟨1, 0, 20, false⟩ ⟨2⟩)
          ⟨0, 3000, 21, false⟩ ⟨2⟩) ⟨2⟩).1 = PacketLookup.Filling := by
  decide

/-- Claim C7, amended: after any store that brings the occupied length
to the target depth, the mode has become Drain (the parenthetical of the
claim); the fetch that follows therefore does not return Filling through
the Fill-mode early return, but it can still return Filling by
withholding a timestamp-ahead front packet. -/
theorem c7_amended (s : PlayoutBuffer) (pkt : StoredPacket) (cfg : Config)
    (h : cfg.playout_buffer_length ≤ occupiedLen (store_packet s pkt cfg).buffer) :
    (store_packet s pkt cfg).playout_mode = PlayoutMode.Drain := by
  have hlen : occupiedLen (store_packet s pkt cfg).buffer
      ≤ (store_packet s pkt cfg).buffer.length := occupiedLen_le _
  exact (store_mode_iff s pkt cfg).mpr (Or.inl (le_trans h hlen))

/-- Witness for the amended C7: depth 1, one stored packet. -/
theorem c7_amended_witness :
    (1 : Nat) ≤ occupiedLen
        (store_packet (PlayoutBuffer.new 0) ⟨0, 0, 1, false⟩ ⟨1⟩).buffer ∧
    (store_packet (PlayoutBuffer.new 0) ⟨0, 0, 1, false⟩ ⟨1⟩).playout_mode
      = PlayoutMode.Drain :=
  ⟨by decide,
   c7_amended (PlayoutBuffer.new 0) ⟨0, 0, 1, false⟩ ⟨1⟩ (by decide)⟩

/-- Claim C2: desync detection and recovery in store_packet.  The desync
condition holds exactly when (the buffer is empty or the consecutive
store-fail count has reached err_threshold) and desired_index is at
least err_threshold; when it holds, the whole buffer is cleared,
next_seq is reset to the packet's sequence number, and the packet is
inserted alone at slot 0; in particular a packet 1000 sequence numbers
ahead (1000 at least err_threshold) stored into an empty buffer resets
next_seq to that packet's sequence number. -/
theorem c2_desync_detection (s : PlayoutBuffer) (pkt : StoredPacket)
    (cfg : Config) (hns : s.next_seq < 65536) :
    (desyncCond s pkt cfg = true ↔
      ((s.buffer = [] ∨
          (err_threshold cfg).toNat ≤ s.consecutive_store_fails) ∧
        err_threshold cfg ≤ diff16 (pktSeq pkt) s.next_seq)) ∧
    (desyncCond s pkt cfg = true →
      (store_packet s pkt cfg).buffer = [some pkt] ∧
      (store_packet s pkt cfg).next_seq = pktSeq pkt ∧
      (store_packet s pkt cfg).consecutive_store_fails = 0) ∧
    (s.buffer = [] → pktSeq pkt = (s.next_seq + 1000) % 65536 →
      err_threshold cfg ≤ 1000 →
      (store_packet s pkt cfg).next_seq = pktSeq pkt ∧
      (store_packet s pkt cfg).buffer = [some pkt]) := by
  have heffect : desyncCond s pkt cfg = true →
      (store_packet s pkt cfg).buffer = [some pkt] ∧
      (store_packet s pkt cfg).next_seq = pktSeq pkt ∧
      (store_packet s pkt cfg).consecutive_store_fails = 0 := by
    intro h
    have h0 : desyncCond (store_init_ts s pkt cfg) pkt cfg = true := by
      rw [desyncCond_init_ts]; exact h
    have hd : desyncCond (store_init_ts s pkt cfg) pkt cfg = true := h0
    have hinit := store_init_ts_fields s pkt cfg
    unfold store_packet
    rw [store_dispatch_desync _ _ _ hd]
    refine ⟨?_, ?_, ?_⟩
    · exact (store_check_drain_fields cfg _).1
    · exact (store_check_drain_fields cfg _).2.1
    · exact (store_check_drain_fields cfg _).2.2.2
  refine ⟨?_, heffect, ?_⟩
  · unfold desyncCond
    simp [List.isEmpty_iff]
  · intro hb hseq hth
    have hdc : desyncCond s pkt cfg = true := by
      unfold desyncCond
      have hdiff : diff16 (pktSeq pkt) s.next_seq = 1000 := by
        rw [hseq]
        have : s.next_seq % 65536 = s.next_seq := Nat.mod_eq_of_lt hns
        calc diff16 ((s.next_seq + 1000) % 65536) s.next_seq
            = diff16 ((s.next_seq + 1000) % 65536) (s.next_seq % 65536) := by
              rw [this]
          _ = 1000 := diff16_add_small s.next_seq 1000 (by omega) (by omega)
      simp [hb, hdiff]
      omega
    have := heffect hdc
    exact ⟨this.2.1, this.1⟩

/-- Witness for C2: empty buffer, next_seq 5, incoming sequence 1005,
depth 2 (err_threshold 10). -/
theorem c2_desync_detection_witness :
    (PlayoutBuffer.new 5).next_seq < 65536 ∧
    (store_packet (PlayoutBuffer.new 5) ⟨1005, 0, 40, false⟩ ⟨2⟩).next_seq
      = pktSeq ⟨1005, 0, 40, false⟩ ∧
    (store_packet (PlayoutBuffer.new 5) ⟨1005, 0, 40, false⟩ ⟨2⟩).buffer
      = [some ⟨1005, 0, 40, false⟩] :=
  ⟨by decide,
   (c2_desync_detection (PlayoutBuffer.new 5) ⟨1005, 0, 40, false⟩ ⟨2⟩
      (by decide)).2.2 rfl (by decide) (by decide)⟩

/-- Claim C9 counterexample: a Fill-mode state with a live playout
cursor (depth 2, one packet stored).  The fetch call returns Filling
through the Fill-mode early return and leaves the cursor untouched,
refuting "advances it ... unconditionally ... including the Filling
returned when the mode is Fill at entry". -/
theorem c9_counterexample :
    (store_packet (PlayoutBuffer.new 0) ⟨0, 0, 30, false⟩ ⟨2⟩).playout_mode
      = PlayoutMode.Fill ∧
    (store_packet (PlayoutBuffer.new 0) ⟨0, 0, 30, false⟩ ⟨2⟩).current_timestamp
      = some 1920 ∧
    (fetch_packet (store_packet (PlayoutBuffer.new 0) ⟨0, 0, 30, false⟩ ⟨2⟩)
        ⟨2⟩).1 = PacketLookup.Filling ∧
    (fetch_packet (store_packet (PlayoutBuffer.new 0) ⟨0, 0, 30, false⟩ ⟨2⟩)
        ⟨2⟩).2.current_timestamp = some 1920 ∧
    some 1920 ≠ some ((1920 + MONO_FRAME_SIZE) % 4294967296) := by
  decide

/-- Claim C9, amended: a Fill-mode fetch returns early with no state
change at all (no cursor advance); every Drain-mode fetch ends by
advancing the cursor that survives the end-of-call empty-buffer reset by
exactly one frame of samples, uniformly across Emit, Loss and Filling
outcomes (fetch_inner is the call up to that reset), and clears it when
the buffer has emptied. -/
theorem c9_amended (s : PlayoutBuffer) (cfg : Config) :
    (s.playout_mode = PlayoutMode.Fill →
      fetch_packet s cfg = (PacketLookup.Filling, s)) ∧
    (s.playout_mode = PlayoutMode.Drain →
      ((fetch_packet s cfg).2.buffer = [] →
        (fetch_packet s cfg).2.current_timestamp = none) ∧
      ((fetch_packet s cfg).2.buffer ≠ [] →
        (fetch_packet s cfg).2.current_timestamp =
          ((fetch_inner s cfg).2.current_timestamp).map
            (fun t => (t + MONO_FRAME_SIZE) % 4294967296))) := by
  refine ⟨fetch_fill s cfg, fun hm => ⟨?_, ?_⟩⟩
  · intro h
    rw [fetch_drain s cfg hm] at h ⊢
    rw [fetch_finalize_buffer] at h
    rw [fetch_finalize_ts, if_pos (List.isEmpty_iff.mpr h)]
  · intro h
    rw [fetch_drain s cfg hm] at h ⊢
    rw [fetch_finalize_buffer] at h
    rw [fetch_finalize_ts, if_neg (by simpa [List.isEmpty_iff] using h)]

/-- Witness for the amended C9: a Drain-mode fetch that emits and leaves
one slot advances the cursor 1920 to 2880. -/
theorem c9_amended_witness :
    (fetch_packet
        ⟨[some ⟨0, 0, 1, false⟩, some ⟨1, 960, 2, false⟩],
          PlayoutMode.Drain, 0, some 1920, 0⟩ ⟨2⟩).2.current_timestamp
      = ((fetch_inner
          ⟨[some ⟨0, 0, 1, false⟩, some ⟨1, 960, 2, false⟩],
            PlayoutMode.Drain, 0, some 1920, 0⟩ ⟨2⟩).2.current_timestamp).map
          (fun t => (t + MONO_FRAME_SIZE) % 4294967296) :=
  ((c9_amended
      ⟨[some ⟨0, 0, 1, false⟩, some ⟨1, 960, 2, false⟩],
        PlayoutMode.Drain, 0, some 1920, 0⟩ ⟨2⟩).2 rfl).2 (by decide)

/-! ### Operation traces (for the temporal claims) -/

/-- One external operation on a PlayoutBuffer: a store of a packet or a
fetch, each with the configuration in force at that call. -/
inductive BufOp where
  | store (pkt : StoredPacket) (cfg : Config)
  | fetch (cfg : Config)

/-- Apply one operation to a state. -/
def applyOp (s : PlayoutBuffer) : BufOp → PlayoutBuffer
  | BufOp.store pkt cfg => store_packet s pkt cfg
  | BufOp.fetch cfg => (fetch_packet s cfg).2

/-- The outputs of the fetch calls along a run of operations. -/
def traceOuts (s : PlayoutBuffer) : List BufOp → List PacketLookup
  | [] => []
  | BufOp.store pkt cfg :: ops => traceOuts (store_packet s pkt cfg) ops
  | BufOp.fetch cfg :: ops =>
      (fetch_packet s cfg).1 :: traceOuts (fetch_packet s cfg).2 ops

lemma notMem_growTo (buf : List (Option StoredPacket)) (i : Nat)
    (q : StoredPacket) (h : some q ∉ buf) : some q ∉ growTo buf i := by
  unfold growTo
  intro hmem
  rcases List.mem_append.mp hmem with h1 | h2
  · exact h h1
  · exact Option.noConfusion (List.eq_of_mem_replicate h2)

lemma notMem_store (s : PlayoutBuffer) (p q : StoredPacket) (cfg : Config)
    (hne : p ≠ q) (h : some q ∉ s.buffer) :
    some q ∉ (store_packet s p cfg).buffer := by
  unfold store_packet
  rw [(store_check_drain_fields cfg _).1]
  have h0 : some q ∉ (store_init_ts s p cfg).buffer := by
    rw [(store_init_ts_fields s p cfg).1]; exact h
  simp only [store_dispatch]
  split_ifs with h1 h2 h3 <;> intro hmem
  · exact h0 hmem
  · exact h0 hmem
  · -- desync branch: buffer is (growTo [] 0).set 0 (some p)
    rcases List.mem_or_eq_of_mem_set hmem with hin | heq
    · exact Option.noConfusion (List.eq_of_mem_replicate hin)
    · exact hne (Option.some.injEq .. ▸ heq.symm ▸ rfl)
  · rcases List.mem_or_eq_of_mem_set hmem with hin | heq
    · exact notMem_growTo _ _ q h0 hin
    · exact hne (Option.some.injEq .. ▸ heq.symm ▸ rfl)

lemma notMem_fetch (s : PlayoutBuffer) (cfg : Config) (q : StoredPacket)
    (h : some q ∉ s.buffer) : some q ∉ (fetch_packet s cfg).2.buffer := by
  cases hm : s.playout_mode with
  | Fill => rw [fetch_fill s cfg hm]; exact h
  | Drain =>
      rw [fetch_drain s cfg hm, fetch_finalize_buffer]
      rcases hb : s.buffer with _ | ⟨slot, rest⟩
      · rw [fetch_inner_nil s cfg hb]
        exact h
      · rcases slot with _ | p
        · rw [fetch_inner_gap s cfg rest hb]
          intro hmem
          exact h (hb ▸ List.mem_cons_of_mem _ hmem)
        · simp only [fetch_inner, hb]
          split_ifs <;> intro hmem
          · exact h (hb ▸ List.mem_cons_of_mem _ hmem)
          · exact h (hb ▸ List.mem_cons_of_mem _ hmem)
          · exact h (hb ▸ hmem)

lemma fetch_emit_mem (s : PlayoutBuffer) (cfg : Config) (p : StoredPacket)
    (h : (fetch_packet s cfg).1 = PacketLookup.Packet p) :
    some p ∈ s.buffer := by
  cases hm : s.playout_mode with
  | Fill =>
      rw [fetch_fill s cfg hm] at h
      exact PacketLookup.noConfusion h
  | Drain =>
      rw [fetch_drain s cfg hm] at h
      rcases hb : s.buffer with _ | ⟨slot, rest⟩
      · rw [fetch_inner_nil s cfg hb] at h
        exact PacketLookup.noConfusion h
      · rcases slot with _ | r
        · rw [fetch_inner_gap s cfg rest hb] at h
          exact PacketLookup.noConfusion h
        · simp only [fetch_inner, hb] at h
          split_ifs at h
          · simp only [PacketLookup.Packet.injEq] at h
            exact h ▸ List.mem_cons_self _ _
          · simp only [PacketLookup.Packet.injEq] at h
            exact h ▸ List.mem_cons_self _ _

lemma notMem_traceOuts (q : StoredPacket) :
    ∀ (ops : List BufOp) (s : PlayoutBuffer), some q ∉ s.buffer →
    (∀ p c, BufOp.store p c ∈ ops → p ≠ q) →
    PacketLookup.Packet q ∉ traceOuts s ops := by
  intro ops
  induction ops with
  | nil => intro s _ _; simp [traceOuts]
  | cons op rest ih =>
      intro s hq hops
      cases op with
      | store pkt cfg =>
          exact ih (store_packet s pkt cfg)
            (notMem_store s pkt q cfg (hops pkt cfg (List.mem_cons_self _ _)) hq)
            (fun p c hp => hops p c (List.mem_cons_of_mem _ hp))
      | fetch cfg =>
          intro hmem
          rcases List.mem_cons.mp hmem with hhead | htail
          · exact hq (fetch_emit_mem s cfg q hhead.symm)
          · exact ih (fetch_packet s cfg).2 (notMem_fetch s cfg q hq)
              (fun p c hp => hops p c (List.mem_cons_of_mem _ hp)) htail

lemma store_next_seq_no_desync (s : PlayoutBuffer) (q : StoredPacket)
    (cfg : Config) (h : desyncCond s q cfg = false) :
    (store_packet s q cfg).next_seq = s.next_seq := by
  have h0 : desyncCond (store_init_ts s q cfg) q cfg = false := by
    rw [desyncCond_init_ts]; exact h
  have hinit := store_init_ts_fields s q cfg
  unfold store_packet
  rw [(store_check_drain_fields cfg _).2.1]
  by_cases hlt : diff16 (pktSeq q) (store_init_ts s q cfg).next_seq < 0
  · rw [store_dispatch_late _ q cfg hlt]; exact hinit.2.1
  · by_cases hce : 64 ≤ diff16 (pktSeq q) (store_init_ts s q cfg).next_seq
    · rw [store_dispatch_ceiling _ q cfg h0 hce]; exact hinit.2.1
    · rw [store_dispatch_insert _ q cfg h0 (by omega) (by omega)]; exact hinit.2.1

lemma store_late_eq (s : PlayoutBuffer) (q : StoredPacket) (cfg : Config)
    (h : diff16 (pktSeq q) s.next_seq < 0) :
    (store_packet s q cfg).buffer = s.buffer ∧
    (store_packet s q cfg).next_seq = s.next_seq := by
  have hinit := store_init_ts_fields s q cfg
  have h' : diff16 (pktSeq q) (store_init_ts s q cfg).next_seq < 0 := by
    rw [hinit.2.1]; exact h
  unfold store_packet
  rw [(store_check_drain_fields cfg _).1, (store_check_drain_fields cfg _).2.1,
    store_dispatch_late _ q cfg h']
  exact ⟨hinit.1, hinit.2.1⟩

lemma store_ceiling_eq (s : PlayoutBuffer) (q : StoredPacket) (cfg : Config)
    (h1 : desyncCond s q cfg = false) (h2 : 64 ≤ diff16 (pktSeq q) s.next_seq) :
    (store_packet s q cfg).buffer = s.buffer ∧
    (store_packet s q cfg).next_seq = s.next_seq ∧
    (store_packet s q cfg).consecutive_store_fails
      = s.consecutive_store_fails + 1 := by
  have hinit := store_init_ts_fields s q cfg
  have h0 : desyncCond (store_init_ts s q cfg) q cfg = false := by
    rw [desyncCond_init_ts]; exact h1
  have h2' : 64 ≤ diff16 (pktSeq q) (store_init_ts s q cfg).next_seq := by
    rw [hinit.2.1]; exact h2
  unfold store_packet
  rw [(store_check_drain_fields cfg _).1, (store_check_drain_fields cfg _).2.1]
  have hcf := (store_check_drain_fields cfg
    (store_dispatch (store_init_ts s q cfg) q cfg)).2.2.2
  rw [hcf, store_dispatch_ceiling _ q cfg h0 h2']
  exact ⟨hinit.1, hinit.2.1, by simp [hinit.2.2.2.1]⟩

/-- Claim C8: store_packet modifies next_seq only when desync handling
triggers; a late packet (desired_index < 0) leaves next_seq and the
buffer unchanged; a ceiling-rejected packet (desired_index >= 64, no
desync) leaves them unchanged and bumps consecutive_store_fails; and a
packet rejected either way (and not re-stored later) never appears in
any subsequent fetch_packet result along any operation trace. -/
theorem c8_rejection_no_effect (s : PlayoutBuffer) (q : StoredPacket)
    (cfg : Config) (ops : List BufOp) :
    (desyncCond s q cfg = false →
      (store_packet s q cfg).next_seq = s.next_seq) ∧
    (diff16 (pktSeq q) s.next_seq < 0 →
      (store_packet s q cfg).buffer = s.buffer ∧
      (store_packet s q cfg).next_seq = s.next_seq) ∧
    (desyncCond s q cfg = false → 64 ≤ diff16 (pktSeq q) s.next_seq →
      (store_packet s q cfg).buffer = s.buffer ∧
      (store_packet s q cfg).next_seq = s.next_seq ∧
      (store_packet s q cfg).consecutive_store_fails
        = s.consecutive_store_fails + 1) ∧
    ((diff16 (pktSeq q) s.next_seq < 0 ∨
        (desyncCond s q cfg = false ∧ 64 ≤ diff16 (pktSeq q) s.next_seq)) →
      some q ∉ s.buffer →
      (∀ p c, BufOp.store p c ∈ ops → p ≠ q) →
      PacketLookup.Packet q ∉ traceOuts (store_packet s q cfg) ops) := by
  refine ⟨store_next_seq_no_desync s q cfg, store_late_eq s q cfg,
    fun h1 h2 => store_ceiling_eq s q cfg h1 h2, ?_⟩
  intro hrej hq hops
  have hbuf : (store_packet s q cfg).buffer = s.buffer := by
    rcases hrej with h | ⟨h1, h2⟩
    · exact (store_late_eq s q cfg h).1
    · exact (store_ceiling_eq s q cfg h1 h2).1
  exact notMem_traceOuts q ops (store_packet s q cfg) (hbuf ▸ hq) hops

/-- Witness for C8: a ceiling-rejected packet (desired_index 70) is
absent from the outputs of two subsequent fetches. -/
theorem c8_rejection_no_effect_witness :
    PacketLookup.Packet ⟨70, 0, 7, false⟩ ∉
      traceOuts
        (store_packet ⟨[some ⟨0, 0, 9, false⟩], PlayoutMode.Fill, 0, none, 0⟩
          ⟨70, 0, 7, false⟩ ⟨1⟩)
        [BufOp.fetch ⟨1⟩, BufOp.fetch ⟨1⟩] :=
  (c8_rejection_no_effect
      ⟨[some ⟨0, 0, 9, false⟩], PlayoutMode.Fill, 0, none, 0⟩
      ⟨70, 0, 7, false⟩ ⟨1⟩ [BufOp.fetch ⟨1⟩, BufOp.fetch ⟨1⟩]).2.2.2
    (Or.inr ⟨by decide, by decide⟩) (by decide)
    (by intro p c hp; simp at hp)

/-! ### Reachable states and the Drain-mode safety invariant -/

/-- States reachable from PlayoutBuffer::new under store_packet and
fetch_packet, with each call's configuration carrying a positive target
depth (Config::playout_buffer_length is a NonZeroUsize). -/
inductive Reachable : PlayoutBuffer → Prop where
  | new (seq : Nat) : Reachable (PlayoutBuffer.new seq)
  | store {s : PlayoutBuffer} (pkt : StoredPacket) (cfg : Config)
      (hd : 1 ≤ cfg.playout_buffer_length) (hs : Reachable s) :
      Reachable (store_packet s pkt cfg)
  | fetch {s : PlayoutBuffer} (cfg : Config)
      (hd : 1 ≤ cfg.playout_buffer_length) (hs : Reachable s) :
      Reachable ((fetch_packet s cfg).2)

lemma growTo_length (buf : List (Option StoredPacket)) (i : Nat) :
    (growTo buf i).length = max buf.length (i + 1) := by
  unfold growTo
  rw [List.length_append, List.length_replicate]
  omega

lemma store_dispatch_buffer_cases (s0 : PlayoutBuffer) (pkt : StoredPacket)
    (cfg : Config) :
    (store_dispatch s0 pkt cfg).buffer = s0.buffer ∨
    1 ≤ (store_dispatch s0 pkt cfg).buffer.length := by
  simp only [store_dispatch]
  split_ifs <;>
    first
      | exact Or.inl rfl
      | (right
         simp only [List.length_set, growTo_length]
         omega)

lemma store_ts_isSome (s : PlayoutBuffer) (pkt : StoredPacket) (cfg : Config) :
    (store_packet s pkt cfg).current_timestamp.isSome = true := by
  unfold store_packet
  rw [(store_check_drain_fields cfg _).2.2.1, store_dispatch_ts]
  exact (store_init_ts_fields s pkt cfg).2.2.2.2

lemma drain_inv_store (s : PlayoutBuffer) (pkt : StoredPacket) (cfg : Config)
    (hd : 1 ≤ cfg.playout_buffer_length)
    (ih : s.playout_mode = PlayoutMode.Drain →
      s.buffer ≠ [] ∧ s.current_timestamp.isSome = true) :
    (store_packet s pkt cfg).playout_mode = PlayoutMode.Drain →
      (store_packet s pkt cfg).buffer ≠ [] ∧
      (store_packet s pkt cfg).current_timestamp.isSome = true := by
  intro hm
  refine ⟨?_, store_ts_isSome s pkt cfg⟩
  rcases (store_mode_iff s pkt cfg).mp hm with hlen | hpre
  · intro hnil
    rw [hnil] at hlen
    simp at hlen
    omega
  · have hne := (ih hpre).1
    have hbuf : (store_packet s pkt cfg).buffer
        = (store_dispatch (store_init_ts s pkt cfg) pkt cfg).buffer := by
      unfold store_packet
      exact (store_check_drain_fields cfg _).1
    rcases store_dispatch_buffer_cases (store_init_ts s pkt cfg) pkt cfg with
      heq | hlen1
    · rw [hbuf, heq, (store_init_ts_fields s pkt cfg).1]
      exact hne
    · rw [hbuf]
      intro hnil
      rw [hnil] at hlen1
      simp at hlen1

lemma drain_inv_fetch (s : PlayoutBuffer) (cfg : Config)
    (ih : s.playout_mode = PlayoutMode.Drain →
      s.buffer ≠ [] ∧ s.current_timestamp.isSome = true) :
    (fetch_packet s cfg).2.playout_mode = PlayoutMode.Drain →
      (fetch_packet s cfg).2.buffer ≠ [] ∧
      (fetch_packet s cfg).2.current_timestamp.isSome = true := by
  cases hm : s.playout_mode with
  | Fill => rw [fetch_fill s cfg hm]; exact ih
  | Drain =>
      obtain ⟨hne, hts⟩ := ih hm
      obtain ⟨t, ht⟩ := Option.isSome_iff_exists.mp hts
      rw [fetch_drain s cfg hm]
      rcases hb : s.buffer with _ | ⟨slot, rest⟩
      · exact absurd hb hne
      · intro hmode
        rcases slot with _ | p
        · rw [fetch_inner_gap s cfg rest hb] at hmode ⊢
          rcases rest with _ | ⟨x, xs⟩
          · rw [fetch_finalize_mode] at hmode
            simp at hmode
          · rw [fetch_finalize_buffer, fetch_finalize_ts]
            simp [ht]
        · by_cases h0 : 0 ≤ diff32 t (pktTs p)
          · rw [fetch_inner_emit_now s cfg p rest t hb ht h0] at hmode ⊢
            rcases rest with _ | ⟨x, xs⟩
            · rw [fetch_finalize_mode] at hmode
              simp at hmode
            · rw [fetch_finalize_buffer, fetch_finalize_ts]
              simp [ht]
          · by_cases h1 : diff32 t (pktTs p) ≤ -(skip_after cfg)
            · rw [fetch_inner_far s cfg p rest t hb ht (by omega) h1] at hmode ⊢
              rcases rest with _ | ⟨x, xs⟩
              · rw [fetch_finalize_mode] at hmode
                simp at hmode
              · rw [fetch_finalize_buffer, fetch_finalize_ts]
                simp
            · rw [fetch_inner_withhold s cfg p rest t hb ht (by omega) (by omega)]
                at hmode
              rw [fetch_finalize_mode] at hmode
              simp at hmode

/-- Claim C10: every state reachable from PlayoutBuffer::new via
store_packet and fetch_packet satisfies: Drain mode implies the buffer
is nonempty and current_timestamp is present.  Hence the
current_timestamp unwrap in fetch_packet's stored-packet branch never
panics, and the empty-buffer pop branch returning Filling is
unreachable in Drain mode. -/
theorem c10_drain_safety (s : PlayoutBuffer) (hs : Reachable s)
    (hm : s.playout_mode = PlayoutMode.Drain) :
    s.buffer ≠ [] ∧ s.current_timestamp.isSome = true := by
  revert hm
  induction hs with
  | new seq => intro hm; exact absurd hm (by simp [PlayoutBuffer.new])
  | store pkt cfg hd _ ih => exact drain_inv_store _ pkt cfg hd ih
  | fetch cfg hd _ ih => exact drain_inv_fetch _ cfg ih

/-- Witness for C10: one store of depth 1 reaches a Drain state. -/
theorem c10_drain_safety_witness :
    (store_packet (PlayoutBuffer.new 0) ⟨0, 0, 1, false⟩ ⟨1⟩).buffer ≠ [] ∧
    (store_packet (PlayoutBuffer.new 0) ⟨0, 0, 1, false⟩
        ⟨1⟩).current_timestamp.isSome = true :=
  c10_drain_safety (store_packet (PlayoutBuffer.new 0) ⟨0, 0, 1, false⟩ ⟨1⟩)
    (Reachable.store ⟨0, 0, 1, false⟩ ⟨1⟩ (by decide) (Reachable.new 0))
    (by decide)

/-! ### Sequence alignment and monotonic emission -/

/-- The slot at offset i from the front holds (if anything) the packet
with sequence number ns + i (mod 2^16). -/
def alignedFrom (ns : Nat) : List (Option StoredPacket) → Prop
  | [] => True
  | slot :: rest =>
      (∀ p, slot = some p → pktSeq p = ns % 65536) ∧ alignedFrom (ns + 1) rest

/-- The buffer is sequence-aligned with next_seq (and next_seq is a
genuine u16 value). -/
def SeqAligned (s : PlayoutBuffer) : Prop :=
  s.next_seq < 65536 ∧ alignedFrom s.next_seq s.buffer

/-- Run n fetch_packet calls, collecting the outputs. -/
def drainFetches : Nat → PlayoutBuffer → Config → List PacketLookup × PlayoutBuffer
  | 0, s, _ => ([], s)
  | n + 1, s, cfg =>
      let r := fetch_packet s cfg
      let w := drainFetches n r.2 cfg
      (r.1 :: w.1, w.2)

/-- The outputs consume consecutive sequence numbers starting at base:
each emitted packet carries the current base and each of Emit and Loss
advances the base by one; Filling consumes nothing. -/
def resultSeqOK (base : Nat) : List PacketLookup → Prop
  | [] => True
  | PacketLookup.Packet p :: rest =>
      pktSeq p = base % 65536 ∧ resultSeqOK (base + 1) rest
  | PacketLookup.MissedPacket :: rest => resultSeqOK (base + 1) rest
  | PacketLookup.Filling :: rest => resultSeqOK base rest

/-- How many sequence numbers a list of outputs consumes (Emit and Loss
each consume one). -/
def consumed : List PacketLookup → Nat
  | [] => 0
  | PacketLookup.Packet _ :: rest => consumed rest + 1
  | PacketLookup.MissedPacket :: rest => consumed rest + 1
  | PacketLookup.Filling :: rest => consumed rest

/-- The sequence numbers of the emitted packets, in emission order. -/
def emittedSeqs (rs : List PacketLookup) : List Nat :=
  rs.filterMap (fun r => match r with
    | PacketLookup.Packet p => some (pktSeq p)
    | _ => none)

/-- Apply a sequence of stores (each with its own configuration). -/
def storeAll (s : PlayoutBuffer) : List (StoredPacket × Config) → PlayoutBuffer
  | [] => s
  | pc :: rest => storeAll (store_packet s pc.1 pc.2) rest

lemma alignedFrom_congr : ∀ (buf : List (Option StoredPacket)) (ns ns' : Nat),
    ns % 65536 = ns' % 65536 → alignedFrom ns buf → alignedFrom ns' buf := by
  intro buf
  induction buf with
  | nil => intro ns ns' _ _; trivial
  | cons slot rest ih =>
      intro ns ns' hmod h
      exact ⟨fun p hp => by rw [h.1 p hp, hmod],
        ih (ns + 1) (ns' + 1) (by omega) h.2⟩

lemma alignedFrom_replicate : ∀ (k ns : Nat),
    alignedFrom ns (List.replicate k (none : Option StoredPacket)) := by
  intro k
  induction k with
  | zero => intro ns; trivial
  | succ k ih =>
      intro ns
      exact ⟨fun p hp => Option.noConfusion hp, ih (ns + 1)⟩

lemma alignedFrom_append_gaps : ∀ (buf : List (Option StoredPacket)) (ns k : Nat),
    alignedFrom ns buf →
    alignedFrom ns (buf ++ List.replicate k none) := by
  intro buf
  induction buf with
  | nil => intro ns k _; exact alignedFrom_replicate k ns
  | cons slot rest ih =>
      intro ns k h
      exact ⟨h.1, ih (ns + 1) k h.2⟩

lemma alignedFrom_set : ∀ (buf : List (Option StoredPacket)) (ns d : Nat)
    (pkt : StoredPacket), alignedFrom ns buf →
    pktSeq pkt = (ns + d) % 65536 →
    alignedFrom ns (buf.set d (some pkt)) := by
  intro buf
  induction buf with
  | nil => intro ns d pkt _ _; simp [List.set]; trivial
  | cons slot rest ih =>
      intro ns d pkt h hp
      cases d with
      | zero =>
          exact ⟨fun p hq => by
            injection hq with hq
            rw [← hq, hp, Nat.add_zero], h.2⟩
      | succ d' =>
          exact ⟨h.1, ih (ns + 1) d' pkt h.2 (by rw [hp]; congr 1; omega)⟩

lemma dispatch_spec (s0 : PlayoutBuffer) (pkt : StoredPacket) (cfg : Config)
    (hns : s0.next_seq < 65536) (hAl : alignedFrom s0.next_seq s0.buffer)
    (hlen : s0.buffer.length ≤ 64) :
    (store_dispatch s0 pkt cfg).next_seq < 65536 ∧
    alignedFrom (store_dispatch s0 pkt cfg).next_seq
      (store_dispatch s0 pkt cfg).buffer ∧
    (store_dispatch s0 pkt cfg).buffer.length ≤ 64 := by
  by_cases hlt : diff16 (pktSeq pkt) s0.next_seq < 0
  · rw [store_dispatch_late s0 pkt cfg hlt]
    exact ⟨hns, hAl, hlen⟩
  · by_cases hdc : desyncCond s0 pkt cfg = true
    · rw [store_dispatch_desync s0 pkt cfg hdc]
      refine ⟨pktSeq_lt pkt, ⟨fun p hp => ?_, trivial⟩, by simp⟩
      injection hp with hp
      rw [← hp, Nat.mod_eq_of_lt (pktSeq_lt pkt)]
    · have hdc' : desyncCond s0 pkt cfg = false := by
        revert hdc
        cases desyncCond s0 pkt cfg <;> simp
      by_cases hce : 64 ≤ diff16 (pktSeq pkt) s0.next_seq
      · rw [store_dispatch_ceiling s0 pkt cfg hdc' hce]
        exact ⟨hns, hAl, hlen⟩
      · rw [store_dispatch_insert s0 pkt cfg hdc' (by omega) (by omega)]
        refine ⟨hns, ?_, ?_⟩
        · apply alignedFrom_set _ s0.next_seq _ pkt
          · exact alignedFrom_append_gaps s0.buffer s0.next_seq _ hAl
          · exact (diff16_toNat_eq (pktSeq pkt) s0.next_seq (pktSeq_lt pkt)
              hns (by omega)).symm
        · have hd64 : (diff16 (pktSeq pkt) s0.next_seq).toNat ≤ 63 := by omega
          simp only [List.length_set, growTo_length]
          omega

lemma aligned_transfer (s s' : PlayoutBuffer) (hb : s'.buffer = s.buffer)
    (hn : s'.next_seq = s.next_seq) (h : SeqAligned s) : SeqAligned s' := by
  unfold SeqAligned
  rw [hb, hn]
  exact h

lemma store_spec (s : PlayoutBuffer) (pkt : StoredPacket) (cfg : Config)
    (hA : SeqAligned s) (hlen : s.buffer.length ≤ 64) :
    SeqAligned (store_packet s pkt cfg) ∧
    (store_packet s pkt cfg).buffer.length ≤ 64 := by
  have hinit := store_init_ts_fields s pkt cfg
  have hA0 : SeqAligned (store_init_ts s pkt cfg) :=
    aligned_transfer s _ hinit.1 hinit.2.1 hA
  have hlen0 : (store_init_ts s pkt cfg).buffer.length ≤ 64 := by
    rw [hinit.1]; exact hlen
  have hd := dispatch_spec (store_init_ts s pkt cfg) pkt cfg hA0.1 hA0.2 hlen0
  have hcf := store_check_drain_fields cfg
    (store_dispatch (store_init_ts s pkt cfg) pkt cfg)
  unfold store_packet
  constructor
  · exact aligned_transfer _ _ hcf.1 hcf.2.1 ⟨hd.1, hd.2.1⟩
  · rw [hcf.1]; exact hd.2.2

lemma aligned_new (seq0 : Nat) : SeqAligned (PlayoutBuffer.new seq0) :=
  ⟨Nat.mod_lt _ (by omega), trivial⟩

lemma storeAll_spec : ∀ (pcs : List (StoredPacket × Config)) (s : PlayoutBuffer),
    SeqAligned s → s.buffer.length ≤ 64 →
    SeqAligned (storeAll s pcs) ∧ (storeAll s pcs).buffer.length ≤ 64 := by
  intro pcs
  induction pcs with
  | nil => intro s hA hl; exact ⟨hA, hl⟩
  | cons pc rest ih =>
      intro s hA hl
      have h := store_spec s pc.1 pc.2 hA hl
      exact ih (store_packet s pc.1 pc.2) h.1 h.2

lemma fetch_inner_emit_now' (s : PlayoutBuffer) (cfg : Config) (p : StoredPacket)
    (rest : List (Option StoredPacket)) (h : s.buffer = some p :: rest)
    (hd : 0 ≤ diff32 (s.current_timestamp.getD 0) (pktTs p)) :
    fetch_inner s cfg =
      (PacketLookup.Packet p,
        { s with buffer := rest, next_seq := (pktSeq p + 1) % 65536 }) := by
  simp only [fetch_inner, h]
  rw [if_pos hd]

lemma fetch_inner_far' (s : PlayoutBuffer) (cfg : Config) (p : StoredPacket)
    (rest : List (Option StoredPacket)) (h : s.buffer = some p :: rest)
    (hd1 : diff32 (s.current_timestamp.getD 0) (pktTs p) < 0)
    (hd2 : diff32 (s.current_timestamp.getD 0) (pktTs p) ≤ -(skip_after cfg)) :
    fetch_inner s cfg =
      (PacketLookup.Packet p,
        { s with buffer := rest, next_seq := (pktSeq p + 1) % 65536,
                 current_timestamp := some (pktTs p) }) := by
  simp only [fetch_inner, h]
  rw [if_neg (by omega), if_pos hd2]

lemma fetch_inner_withhold' (s : PlayoutBuffer) (cfg : Config) (p : StoredPacket)
    (rest : List (Option StoredPacket)) (h : s.buffer = some p :: rest)
    (hd1 : diff32 (s.current_timestamp.getD 0) (pktTs p) < 0)
    (hd2 : -(skip_after cfg) < diff32 (s.current_timestamp.getD 0) (pktTs p)) :
    fetch_inner s cfg =
      (PacketLookup.Filling,
        { s with buffer := some p :: rest,
                 playout_mode := PlayoutMode.Fill }) := by
  simp only [fetch_inner, h]
  rw [if_neg (by omega), if_neg (by omega)]

lemma fetch_step (s : PlayoutBuffer) (cfg : Config) (hA : SeqAligned s) :
    SeqAligned (fetch_packet s cfg).2 ∧
    (((fetch_packet s cfg).1 = PacketLookup.Filling ∧
        (fetch_packet s cfg).2.next_seq = s.next_seq ∧
        (fetch_packet s cfg).2.buffer.length = s.buffer.length) ∨
      ((∃ p, (fetch_packet s cfg).1 = PacketLookup.Packet p ∧
          pktSeq p = s.next_seq) ∧
        (fetch_packet s cfg).2.next_seq = (s.next_seq + 1) % 65536 ∧
        (fetch_packet s cfg).2.buffer.length + 1 = s.buffer.length) ∨
      ((fetch_packet s cfg).1 = PacketLookup.MissedPacket ∧
        (fetch_packet s cfg).2.next_seq = (s.next_seq + 1) % 65536 ∧
        (fetch_packet s cfg).2.buffer.length + 1 = s.buffer.length)) := by
  cases hm : s.playout_mode with
  | Fill =>
      rw [fetch_fill s cfg hm]
      exact ⟨hA, Or.inl ⟨rfl, rfl, rfl⟩⟩
  | Drain =>
      rw [fetch_drain s cfg hm]
      rcases hb : s.buffer with _ | ⟨slot, rest⟩
      · rw [fetch_inner_nil s cfg hb]
        refine ⟨?_, Or.inl ⟨rfl, ?_, ?_⟩⟩
        · exact aligned_transfer s _ (fetch_finalize_buffer s) (fetch_finalize_next_seq s) hA
        · exact fetch_finalize_next_seq s
        · rw [fetch_finalize_buffer]
          simp [hb]
      · have htail : alignedFrom (s.next_seq + 1) rest := by
          have := hA.2
          rw [hb] at this
          exact this.2
      
        rcases slot with _ | p
        · rw [fetch_inner_gap s cfg rest hb]
          have hfb := fetch_finalize_buffer
            { s with buffer := rest, next_seq := (s.next_seq + 1) % 65536 }
          have hfn := fetch_finalize_next_seq
            { s with buffer := rest, next_seq := (s.next_seq + 1) % 65536 }
          refine ⟨?_, Or.inr (Or.inr ⟨rfl, ?_, ?_⟩)⟩
          · refine aligned_transfer _ _ hfb hfn ⟨?_, ?_⟩
            · exact Nat.mod_lt _ (by omega)
            · exact alignedFrom_congr rest (s.next_seq + 1) ((s.next_seq + 1) % 65536)
                (by omega) htail
          · exact hfn
          · rw [hfb]
            simp
        · have hhead : pktSeq p = s.next_seq := by
            have := hA.2
            rw [hb] at this
            rw [this.1 p rfl, Nat.mod_eq_of_lt hA.1]
          have hns1 : (pktSeq p + 1) % 65536 = (s.next_seq + 1) % 65536 := by
            rw [hhead]
          by_cases h0 : 0 ≤ diff32 (s.current_timestamp.getD 0) (pktTs p)
          · rw [fetch_inner_emit_now' s cfg p rest hb h0]
            have hfb := fetch_finalize_buffer
              { s with buffer := rest, next_seq := (pktSeq p + 1) % 65536 }
            have hfn := fetch_finalize_next_seq
              { s with buffer := rest, next_seq := (pktSeq p + 1) % 65536 }
            refine ⟨?_, Or.inr (Or.inl ⟨⟨p, rfl, hhead⟩, ?_, ?_⟩)⟩
            · refine aligned_transfer _ _ hfb hfn ⟨?_, ?_⟩
              · exact Nat.mod_lt _ (by omega)
              · show alignedFrom ((pktSeq p + 1) % 65536) rest
                rw [hns1]
                exact alignedFrom_congr rest (s.next_seq + 1) _ (by omega) htail
            · rw [hfn]; exact hns1
            · rw [hfb]; simp
          · by_cases h1 : diff32 (s.current_timestamp.getD 0) (pktTs p)
                ≤ -(skip_after cfg)
            · rw [fetch_inner_far' s cfg p rest hb (by omega) h1]
              have hfb := fetch_finalize_buffer
                { s with buffer := rest, next_seq := (pktSeq p + 1) % 65536,
                         current_timestamp := some (pktTs p) }
              have hfn := fetch_finalize_next_seq
                { s with buffer := rest, next_seq := (pktSeq p + 1) % 65536,
                         current_timestamp := some (pktTs p) }
              refine ⟨?_, Or.inr (Or.inl ⟨⟨p, rfl, hhead⟩, ?_, ?_⟩)⟩
              · refine aligned_transfer _ _ hfb hfn ⟨?_, ?_⟩
                · exact Nat.mod_lt _ (by omega)
                · show alignedFrom ((pktSeq p + 1) % 65536) rest
                  rw [hns1]
                  exact alignedFrom_congr rest (s.next_seq + 1) _ (by omega) htail
              · rw [hfn]; exact hns1
              · rw [hfb]; simp
            · rw [fetch_inner_withhold' s cfg p rest hb (by omega) (by omega)]
              have hfb := fetch_finalize_buffer
                { s with buffer := some p :: rest,
                         playout_mode := PlayoutMode.Fill }
              have hfn := fetch_finalize_next_seq
                { s with buffer := some p :: rest,
                         playout_mode := PlayoutMode.Fill }
              refine ⟨?_, Or.inl ⟨rfl, ?_, ?_⟩⟩
              · refine aligned_transfer _ _ hfb hfn ⟨hA.1, ?_⟩
                show alignedFrom s.next_seq (some p :: rest)
                rw [← hb]
                exact hA.2
              · exact hfn
              · rw [hfb]

lemma resultSeqOK_congr : ∀ (rs : List PacketLookup) (b b' : Nat),
    b % 65536 = b' % 65536 → resultSeqOK b rs → resultSeqOK b' rs := by
  intro rs
  induction rs with
  | nil => intro b b' _ _; trivial
  | cons r rest ih =>
      intro b b' hmod h
      cases r with
      | Packet p =>
          exact ⟨by rw [h.1, hmod], ih (b + 1) (b' + 1) (by omega) h.2⟩
      | MissedPacket => exact ih (b + 1) (b' + 1) (by omega) h
      | Filling => exact ih b b' hmod h

lemma drain_spec : ∀ (n : Nat) (s : PlayoutBuffer) (cfg : Config),
    SeqAligned s →
    resultSeqOK s.next_seq (drainFetches n s cfg).1 ∧
    consumed (drainFetches n s cfg).1 + (drainFetches n s cfg).2.buffer.length
      = s.buffer.length := by
  intro n
  induction n with
  | zero => intro s cfg _; exact ⟨trivial, by simp [drainFetches, consumed]⟩
  | succ n ih =>
      intro s cfg hA
      have step := fetch_step s cfg hA
      have ih' := ih (fetch_packet s cfg).2 cfg step.1
      show resultSeqOK s.next_seq
          ((fetch_packet s cfg).1 :: (drainFetches n (fetch_packet s cfg).2 cfg).1) ∧
        consumed ((fetch_packet s cfg).1 ::
            (drainFetches n (fetch_packet s cfg).2 cfg).1) +
          (drainFetches n (fetch_packet s cfg).2 cfg).2.buffer.length
          = s.buffer.length
      rcases step.2 with ⟨hF, hns, hlen⟩ | ⟨⟨p, hP, hseq⟩, hns, hlen⟩ |
        ⟨hM, hns, hlen⟩
      · rw [hF]
        constructor
        · show resultSeqOK s.next_seq (drainFetches n (fetch_packet s cfg).2 cfg).1
          rw [← hns]
          exact ih'.1
        · show consumed (drainFetches n (fetch_packet s cfg).2 cfg).1 +
              (drainFetches n (fetch_packet s cfg).2 cfg).2.buffer.length
              = s.buffer.length
          omega
      · rw [hP]
        constructor
        · refine ⟨by rw [hseq, Nat.mod_eq_of_lt hA.1], ?_⟩
          exact resultSeqOK_congr _ (fetch_packet s cfg).2.next_seq
            (s.next_seq + 1) (by omega) ih'.1
        · show consumed (drainFetches n (fetch_packet s cfg).2 cfg).1 + 1 +
              (drainFetches n (fetch_packet s cfg).2 cfg).2.buffer.length
              = s.buffer.length
          omega
      · rw [hM]
        constructor
        · show resultSeqOK (s.next_seq + 1)
            (drainFetches n (fetch_packet s cfg).2 cfg).1
          exact resultSeqOK_congr _ (fetch_packet s cfg).2.next_seq
            (s.next_seq + 1) (by omega) ih'.1
        · show consumed (drainFetches n (fetch_packet s cfg).2 cfg).1 + 1 +
              (drainFetches n (fetch_packet s cfg).2 cfg).2.buffer.length
              = s.buffer.length
          omega

lemma seqOK_mem_shape : ∀ (rs : List PacketLookup) (base : Nat),
    resultSeqOK base rs →
    ∀ x ∈ emittedSeqs rs, ∃ c, c < consumed rs ∧ x = (base + c) % 65536 := by
  intro rs
  induction rs with
  | nil => intro base _ x hx; simp [emittedSeqs] at hx
  | cons r rest ih =>
      intro base h x hx
      cases r with
      | Packet p =>
          rw [show emittedSeqs (PacketLookup.Packet p :: rest)
              = pktSeq p :: emittedSeqs rest from by simp [emittedSeqs]] at hx
          rcases List.mem_cons.mp hx with hx | hx
          · refine ⟨0, ?_, ?_⟩
            · show 0 < consumed rest + 1
              omega
            · rw [hx, h.1, Nat.add_zero]
          · obtain ⟨c, hc, hxc⟩ := ih (base + 1) h.2 x hx
            refine ⟨c + 1, ?_, ?_⟩
            · show c + 1 < consumed rest + 1
              omega
            · rw [hxc]
              congr 1
              omega
      | MissedPacket =>
          rw [show emittedSeqs (PacketLookup.MissedPacket :: rest)
              = emittedSeqs rest from by simp [emittedSeqs]] at hx
          obtain ⟨c, hc, hxc⟩ := ih (base + 1) h x hx
          refine ⟨c + 1, ?_, ?_⟩
          · show c + 1 < consumed rest + 1
            omega
          · rw [hxc]
            congr 1
            omega
      | Filling =>
          rw [show emittedSeqs (PacketLookup.Filling :: rest)
              = emittedSeqs rest from by simp [emittedSeqs]] at hx
          exact ih base h x hx

lemma seqOK_pairwise : ∀ (rs : List PacketLookup) (base : Nat),
    resultSeqOK base rs → consumed rs ≤ 64 →
    List.Pairwise (fun a b => 0 < diff16 b a) (emittedSeqs rs) := by
  intro rs
  induction rs with
  | nil => intro base _ _; simp [emittedSeqs]
  | cons r rest ih =>
      intro base h hc
      cases r with
      | Packet p =>
          rw [show emittedSeqs (PacketLookup.Packet p :: rest)
              = pktSeq p :: emittedSeqs rest from by simp [emittedSeqs]]
          have hc' : consumed rest ≤ 64 := by
            have : consumed (PacketLookup.Packet p :: rest)
                = consumed rest + 1 := rfl
            omega
          refine List.Pairwise.cons ?_ (ih (base + 1) h.2 hc')
          intro x hx
          obtain ⟨c, hcc, hxc⟩ := seqOK_mem_shape rest (base + 1) h.2 x hx
          rw [hxc, h.1]
          have hrw : (base + 1 + c) % 65536 = (base + (c + 1)) % 65536 := by
            congr 1
            omega
          rw [hrw]
          have := diff16_add_small base (c + 1) (by omega) (by omega)
          omega
      | MissedPacket =>
          rw [show emittedSeqs (PacketLookup.MissedPacket :: rest)
              = emittedSeqs rest from by simp [emittedSeqs]]
          have hc' : consumed rest ≤ 64 := by
            have : consumed (PacketLookup.MissedPacket :: rest)
                = consumed rest + 1 := rfl
            omega
          exact ih (base + 1) h hc'
      | Filling =>
          rw [show emittedSeqs (PacketLookup.Filling :: rest)
              = emittedSeqs rest from by simp [emittedSeqs]]
          exact ih base h hc

/-- Claim C6: for any sequence of store_packet calls from a fresh buffer
(each store with its own configuration) followed by any number of
fetch_packet calls, the outputs consume consecutive sequence numbers
starting at next_seq (each Loss consuming one), and the sequence
numbers of the emitted packets are strictly increasing modulo 16-bit
wraparound with no sequence number emitted twice. -/
theorem c6_monotonic_emission (seq0 : Nat) (pcs : List (StoredPacket × Config))
    (cfg : Config) (n : Nat) :
    resultSeqOK (storeAll (PlayoutBuffer.new seq0) pcs).next_seq
      (drainFetches n (storeAll (PlayoutBuffer.new seq0) pcs) cfg).1 ∧
    List.Pairwise (fun a b => 0 < diff16 b a)
      (emittedSeqs
        (drainFetches n (storeAll (PlayoutBuffer.new seq0) pcs) cfg).1) ∧
    (emittedSeqs
        (drainFetches n (storeAll (PlayoutBuffer.new seq0) pcs) cfg).1).Nodup := by
  have hstart := storeAll_spec pcs (PlayoutBuffer.new seq0) (aligned_new seq0)
    (by simp [PlayoutBuffer.new])
  have hd := drain_spec n (storeAll (PlayoutBuffer.new seq0) pcs) cfg hstart.1
  have hcons : consumed
      (drainFetches n (storeAll (PlayoutBuffer.new seq0) pcs) cfg).1 ≤ 64 := by
    have h1 := hd.2
    have h2 := hstart.2
    omega
  have hpw := seqOK_pairwise _ _ hd.1 hcons
  refine ⟨hd.1, hpw, ?_⟩
  refine hpw.imp ?_
  intro a b hab heq
  rw [heq] at hab
  have := diff16_self b
  omega
